import Mathlib

/-!
Shallow embedding of `src/Homework/01/scripts/generation.py` (function `generate`).

Scores are real numbers; the tensor plumbing (batch dimension of one, `.cpu()`,
`.numpy()`, `.flatten()`) is elided.  `np.random.choice(ids, p=q)` draws one
categorical outcome proportional to `q`; it is embedded as inversion of the
cumulative distribution applied to an externally supplied uniform draw
`u ∈ [0,1)`, one draw per loop step (stream `rand : ℕ → ℝ`).
`np.argpartition`/`np.argsort` leave the relative order of equal values
unspecified; the embedding fixes the deterministic refinement "descending
value, ascending index among ties" (a stable descending sort of the indices).
`torch.argmax` returns the index of the first maximal value.
The only run-time failure the source can hit in the selection code is
`np.argpartition(p, -top_k)` with `top_k > len(p)` (kth out of bounds), so the
per-step selection returns `Except String ℕ` with exactly that error case.
The `ByteTokenizer` and `Model` classes are outside `src/`; they enter only
through their interface (bos/eos ids, `decode`, and the step function
returning per-position score rows plus a new opaque recurrent state).
-/

namespace Generation

noncomputable section

/-- Maximum of a list of reals (0 for the empty list; only used on nonempty lists). -/
def listMax : List ℝ → ℝ
  | [] => 0
  | [x] => x
  | x :: y :: ys => max x (listMax (y :: ys))

/-- Index of the first maximal element, as `torch.argmax(logits, dim=-1).item()`
computes it on the last-position score row (line 77 of the source). -/
def argmax : List ℝ → ℕ
  | [] => 0
  | [_] => 0
  | x :: y :: ys => if x < listMax (y :: ys) then argmax (y :: ys) + 1 else 0

/-- Cumulative-distribution inversion for one categorical draw with weights `q`
and uniform sample `u`: the first index whose running total exceeds `u`,
clamped to the last index.  This is the embedding of `np.random.choice(_, p=q)`. -/
def catDraw : List ℝ → ℝ → ℕ
  | [], _ => 0
  | [_], _ => 0
  | x :: y :: ys, u => if u < x then 0 else catDraw (y :: ys) (u - x) + 1

/-- Softmax as `F.softmax(logits, dim=-1)` computes it, read mathematically:
`exp xᵢ / Σⱼ exp xⱼ` (line 81 of the source). -/
def softmax (l : List ℝ) : List ℝ :=
  l.map (fun x => Real.exp x / (l.map Real.exp).sum)

/-- Numerically-stable softmax as the spec words it: subtract the maximum
before exponentiating, then normalize. -/
def softmaxStable (l : List ℝ) : List ℝ :=
  (l.map (fun x => Real.exp (x - listMax l))).map
    (fun x => x / ((l.map (fun y => Real.exp (y - listMax l))).sum))

/-- Indices `0..p.length-1` sorted by descending probability, ascending index
among equal values: the deterministic refinement of
`np.argpartition(p, -k)[-k:]` followed by `np.argsort(-p[...])` (lines 86-87). -/
def sortedIdxDesc (p : List ℝ) : List ℕ :=
  List.insertionSort (fun i j => p.getD j 0 ≤ p.getD i 0) (List.range p.length)

/-- The candidate ids kept by the top-k restriction, highest probability first.
`k = 0` reproduces the source quirk `a[-0:] = a` (the whole vocabulary). -/
def topKIds (p : List ℝ) (k : ℕ) : List ℕ :=
  (sortedIdxDesc p).take (if k = 0 then p.length else k)

/-- Probability distribution a sampling step works from: logits divided in
place by the temperature (line 79) then softmaxed (line 81). -/
def stepProbs (temperature : ℝ) (logits : List ℝ) : List ℝ :=
  softmax (logits.map (fun x => x / temperature))

/-- Same distribution as the spec words it: scale by `1/temperature`, then
numerically-stable softmax. -/
def stepProbsSpec (temperature : ℝ) (logits : List ℝ) : List ℝ :=
  softmaxStable (logits.map (fun x => x * (1 / temperature)))

/-- One selection decision of the loop body (lines 75-91): greedy arg-max when
`temperature > 0` fails, otherwise temperature-scaled softmax sampling,
restricted to the top-k candidates when `top_k` is given.  `u` is the uniform
draw consumed by the categorical sample of this step. -/
def selectToken (temperature : ℝ) (top_k : Option ℕ) (logits : List ℝ) (u : ℝ) :
    Except String ℕ :=
  if 0 < temperature then
    let p := stepProbs temperature logits
    match top_k with
    | some k =>
      if p.length < k then .error "top_k out of bounds for vocabulary"
      else
        let ids := topKIds p k
        let w := ids.map (fun i => p.getD i 0)
        .ok (ids.getD (catDraw (w.map (fun x => x / w.sum)) u) 0)
    | none => .ok (catDraw p u)
  else
    .ok (argmax logits)

/-- Selection decision as the spec words it: multiply every score by
`1/temperature`, stable softmax, top-k restriction with renormalization,
one categorical draw. -/
def selectTokenSpec (temperature : ℝ) (top_k : Option ℕ) (logits : List ℝ) (u : ℝ) :
    Except String ℕ :=
  if 0 < temperature then
    let p := stepProbsSpec temperature logits
    match top_k with
    | some k =>
      if p.length < k then .error "top_k out of bounds for vocabulary"
      else
        let ids := topKIds p k
        let w := ids.map (fun i => p.getD i 0)
        .ok (ids.getD (catDraw (w.map (fun x => x / w.sum)) u) 0)
    | none => .ok (catDraw p u)
  else
    .ok (argmax logits)

/-- The sequence model: fed one token id and the opaque recurrent state
(`none` at the start of a sequence), it returns one score row per input
position plus the new recurrent state. -/
structure Model (S : Type) where
  step : ℕ → Option S → List (List ℝ) × Option S

/-- Tokenizer interface used by `generate`: the two reserved ids and `decode`. -/
structure Tokenizer where
  bos_token_id : ℕ
  eos_token_id : ℕ
  decode : List ℕ → String

/-- Outcome of one run of the loop: the emitted ids (`gen_ids`), the token fed
to the model at each call (instrumentation of the call trace, so that the
number and order of model calls is observable), and whether the loop stopped
on an end-of-sequence sample rather than on the length bound. -/
structure GenResult where
  ids : List ℕ
  inputs : List ℕ
  stoppedEarly : Bool

/-- The decoding loop of lines 67-96.  `fuel` is the number of remaining
iterations: the guard `len(gen_ids) < max_length` together with "each
iteration appends exactly one id or breaks" makes the loop run at most
`max_length - len(gen_ids)` more times, which the fuel counts exactly.
`model.step` is pure, so reading its two components separately is the one
`logits, hx = model(tokens, hx)` call of line 70;
`(·.getLastD [])` is the `logits[:, -1, :]` of line 73. -/
def genLoop {S : Type} (model : Model S) (tok : Tokenizer) (temperature : ℝ)
    (top_k : Option ℕ) (rand : ℕ → ℝ) :
    ℕ → ℕ → Option S → List ℕ → List ℕ → Except String GenResult
  | 0, _, _, acc, ins => .ok ⟨acc, ins, false⟩
  | fuel + 1, input, hx, acc, ins =>
    match selectToken temperature top_k ((model.step input hx).1.getLastD [])
        (rand ins.length) with
    | .error e => .error e
    | .ok t =>
      if t = tok.eos_token_id then .ok ⟨acc, ins ++ [input], true⟩
      else
        genLoop model tok temperature top_k rand fuel t (model.step input hx).2
          (acc ++ [t]) (ins ++ [input])

/-- Whole-loop run from the initial state of lines 61-64: empty `gen_ids`,
recurrent state `None`, first input the begin-of-sequence id.  `max_length`
is a Python `int`, hence `ℤ`; a non-positive bound gives zero iterations. -/
def generateRun {S : Type} (model : Model S) (tok : Tokenizer) (temperature : ℝ)
    (top_k : Option ℕ) (max_length : ℤ) (rand : ℕ → ℝ) : Except String GenResult :=
  genLoop model tok temperature top_k rand max_length.toNat tok.bos_token_id none [] []

/-- The `generate` function of the source: run the loop, then decode the
emitted ids (line 98). -/
def generate {S : Type} (model : Model S) (tok : Tokenizer) (temperature : ℝ)
    (top_k : Option ℕ) (max_length : ℤ) (rand : ℕ → ℝ) : Except String String :=
  (generateRun model tok temperature top_k max_length rand).map (fun r => tok.decode r.ids)

/-- Concrete two-token-vocabulary model used by the closed witness statements:
constant score row `[0, 1]`, recurrent state discarded. -/
def cModel : Model Unit := ⟨fun _ _ => ([[0, 1]], none)⟩

/-- Concrete model whose returned logits have a row for more than one position;
only the last row `[0, 1]` agrees with `cModel`. -/
def cModelPad : Model Unit := ⟨fun _ _ => ([[5, 7], [0, 1]], none)⟩

/-- Concrete tokenizer for the witness statements: `bos = 0`, `eos = 1`,
decoding everything to the empty string. -/
def cTok : Tokenizer := ⟨0, 1, fun _ => ""⟩

/-- Constant stream of uniform draws for the witness statements. -/
def cRand : ℕ → ℝ := fun _ => 0

end

/-! Basic facts about `listMax` and `argmax`. -/

theorem le_listMax : ∀ (l : List ℝ) (j : ℕ), j < l.length → l.getD j 0 ≤ listMax l := by
  intro l
  induction l with
  | nil => intro j hj; simp at hj
  | cons x t ih =>
    intro j hj
    cases t with
    | nil =>
      have hj0 : j = 0 := by simp at hj; omega
      subst hj0
      simp [listMax]
    | cons y ys =>
      cases j with
      | zero => simp [listMax]
      | succ j =>
        have := ih j (by simpa using hj)
        calc (x :: y :: ys).getD (j + 1) 0 = (y :: ys).getD j 0 := by simp
        _ ≤ listMax (y :: ys) := this
        _ ≤ listMax (x :: y :: ys) := by simp [listMax]

theorem argmax_lt_length : ∀ l : List ℝ, l ≠ [] → argmax l < l.length := by
  intro l
  induction l with
  | nil => intro h; exact absurd rfl h
  | cons x t ih =>
    intro _
    cases t with
    | nil => simp [argmax]
    | cons y ys =>
      by_cases hx : x < listMax (y :: ys)
      · have h1 := ih (by simp)
        simp only [argmax, if_pos hx, List.length_cons] at h1 ⊢
        omega
      · simp [argmax, if_neg hx]

theorem getD_argmax : ∀ l : List ℝ, l ≠ [] → l.getD (argmax l) 0 = listMax l := by
  intro l
  induction l with
  | nil => intro h; exact absurd rfl h
  | cons x t ih =>
    intro _
    cases t with
    | nil => simp [argmax, listMax]
    | cons y ys =>
      by_cases hx : x < listMax (y :: ys)
      · have h1 : (y :: ys).getD (argmax (y :: ys)) 0 = listMax (y :: ys) := ih (by simp)
        simp only [argmax, if_pos hx, List.getD_cons_succ, listMax, h1]
        exact (max_eq_right hx.le).symm
      · simp only [argmax, if_neg hx, List.getD_cons_zero, listMax]
        exact (max_eq_left (not_lt.mp hx)).symm

theorem argmax_is_max (l : List ℝ) (j : ℕ) (hj : j < l.length) (hne : l ≠ []) :
    l.getD j 0 ≤ l.getD (argmax l) 0 := by
  rw [getD_argmax l hne]
  exact le_listMax l j hj

theorem lt_of_lt_argmax : ∀ (l : List ℝ) (j : ℕ), j < argmax l →
    l.getD j 0 < l.getD (argmax l) 0 := by
  intro l
  induction l with
  | nil => intro j hj; simp [argmax] at hj
  | cons x t ih =>
    intro j hj
    cases t with
    | nil => simp [argmax] at hj
    | cons y ys =>
      by_cases hx : x < listMax (y :: ys)
      · simp only [argmax, if_pos hx] at hj ⊢
        cases j with
        | zero =>
          rw [List.getD_cons_zero, List.getD_cons_succ, getD_argmax (y :: ys) (by simp)]
          exact hx
        | succ j =>
          rw [List.getD_cons_succ, List.getD_cons_succ]
          exact ih j (by omega)
      · simp [argmax, if_neg hx] at hj

/-! Basic facts about `catDraw` and `List.getD` membership. -/

theorem catDraw_lt_length : ∀ (q : List ℝ) (u : ℝ), q ≠ [] → catDraw q u < q.length := by
  intro q
  induction q with
  | nil => intro u h; exact absurd rfl h
  | cons x t ih =>
    intro u _
    cases t with
    | nil => simp [catDraw]
    | cons y ys =>
      by_cases hu : u < x
      · simp [catDraw, if_pos hu]
      · have h1 := ih (u - x) (by simp)
        simp only [catDraw, if_neg hu, List.length_cons] at h1 ⊢
        omega

theorem getD_mem_of_lt {α : Type} : ∀ (l : List α) (n : ℕ) (d : α), n < l.length →
    l.getD n d ∈ l := by
  intro l
  induction l with
  | nil => intro n d h; simp at h
  | cons x t ih =>
    intro n d h
    cases n with
    | zero => simp
    | succ n =>
      have := ih n d (by simpa using h)
      simp only [List.getD_cons_succ]
      exact List.mem_cons_of_mem x this

/-! The plain softmax of the source and the max-subtracting softmax of the
spec agree over the reals, hence the two step distributions coincide. -/

theorem sum_map_mul_const (l : List ℝ) (f : ℝ → ℝ) (c : ℝ) :
    (l.map (fun x => f x * c)).sum = (l.map f).sum * c := by
  induction l with
  | nil => simp
  | cons a t ih => simp [ih, add_mul]

theorem softmax_eq_softmaxStable (l : List ℝ) : softmax l = softmaxStable l := by
  unfold softmax softmaxStable
  rw [List.map_map]
  have hexp : (fun x => Real.exp (x - listMax l)) =
      fun x => Real.exp x * Real.exp (-(listMax l)) := by
    funext x
    rw [← Real.exp_add, sub_eq_add_neg]
  have hsum : (l.map (fun y => Real.exp (y - listMax l))).sum =
      (l.map Real.exp).sum * Real.exp (-(listMax l)) := by
    rw [hexp, sum_map_mul_const]
  have hfun : (fun x => Real.exp x / (l.map Real.exp).sum) =
      ((fun x => x / (l.map (fun y => Real.exp (y - listMax l))).sum) ∘
        fun x => Real.exp (x - listMax l)) := by
    funext x
    simp only [Function.comp_apply]
    rw [hsum, Real.exp_sub, Real.exp_neg]
    rcases eq_or_ne (l.map Real.exp).sum 0 with h0 | h0
    · simp [h0]
    · field_simp
  rw [hfun]

theorem stepProbs_eq_spec (temperature : ℝ) (logits : List ℝ) :
    stepProbs temperature logits = stepProbsSpec temperature logits := by
  unfold stepProbs stepProbsSpec
  have hmap : (fun x : ℝ => x / temperature) = fun x : ℝ => x * (1 / temperature) := by
    funext x
    rw [one_div, div_eq_mul_inv]
  rw [hmap, softmax_eq_softmaxStable]

theorem stepProbs_length (temperature : ℝ) (logits : List ℝ) :
    (stepProbs temperature logits).length = logits.length := by
  simp [stepProbs, softmax]

/-! Facts about the sorted index list and the top-k candidate set. -/

theorem sortedIdxDesc_perm (p : List ℝ) :
    (sortedIdxDesc p).Perm (List.range p.length) :=
  List.perm_insertionSort _ _

theorem sortedIdxDesc_length (p : List ℝ) : (sortedIdxDesc p).length = p.length := by
  have := (sortedIdxDesc_perm p).length_eq
  simpa using this

theorem sortedIdxDesc_sorted (p : List ℝ) :
    List.Sorted (fun i j => p.getD j 0 ≤ p.getD i 0) (sortedIdxDesc p) := by
  haveI : IsTotal ℕ (fun i j => p.getD j 0 ≤ p.getD i 0) :=
    ⟨fun a b => (le_total (p.getD b 0) (p.getD a 0))⟩
  haveI : IsTrans ℕ (fun i j => p.getD j 0 ≤ p.getD i 0) :=
    ⟨fun _ _ _ hab hbc => le_trans hbc hab⟩
  exact List.sorted_insertionSort _ _

theorem topKIds_eq_take (p : List ℝ) (k : ℕ) (hk : 1 ≤ k) :
    topKIds p k = (sortedIdxDesc p).take k := by
  unfold topKIds
  rw [if_neg (by omega)]

theorem topKIds_length (p : List ℝ) (k : ℕ) (hk : 1 ≤ k) (hkl : k ≤ p.length) :
    (topKIds p k).length = k := by
  rw [topKIds_eq_take p k hk, List.length_take, sortedIdxDesc_length]
  omega

theorem topKIds_nodup (p : List ℝ) (k : ℕ) (hk : 1 ≤ k) : (topKIds p k).Nodup := by
  rw [topKIds_eq_take p k hk]
  exact List.Nodup.sublist (List.take_sublist _ _)
    ((sortedIdxDesc_perm p).nodup_iff.mpr (List.nodup_range _))

theorem topKIds_mem_lt (p : List ℝ) (k : ℕ) (i : ℕ) (hk : 1 ≤ k)
    (hi : i ∈ topKIds p k) : i < p.length := by
  rw [topKIds_eq_take p k hk] at hi
  have : i ∈ sortedIdxDesc p := List.mem_of_mem_take hi
  have := (sortedIdxDesc_perm p).mem_iff.mp this
  exact List.mem_range.mp this

theorem topKIds_dominates (p : List ℝ) (k : ℕ) (i j : ℕ) (hk : 1 ≤ k)
    (hi : i ∈ topKIds p k) (hj : j < p.length) (hj2 : j ∉ topKIds p k) :
    p.getD j 0 ≤ p.getD i 0 := by
  rw [topKIds_eq_take p k hk] at hi hj2
  have hjS : j ∈ sortedIdxDesc p :=
    (sortedIdxDesc_perm p).mem_iff.mpr (List.mem_range.mpr hj)
  have hsplit : j ∈ (sortedIdxDesc p).take k ++ (sortedIdxDesc p).drop k := by
    rw [List.take_append_drop]
    exact hjS
  have hjdrop : j ∈ (sortedIdxDesc p).drop k := by
    rcases List.mem_append.mp hsplit with h | h
    · exact absurd h hj2
    · exact h
  have hpair : List.Pairwise (fun i j => p.getD j 0 ≤ p.getD i 0) (sortedIdxDesc p) :=
    sortedIdxDesc_sorted p
  rw [← List.take_append_drop k (sortedIdxDesc p)] at hpair
  exact (List.pairwise_append.mp hpair).2.2 i hi j hjdrop

/-! Shape of one selection decision in each branch. -/

theorem selectToken_nonpos (temperature : ℝ) (top_k : Option ℕ) (h : temperature ≤ 0) :
    ∀ (l : List ℝ) (u : ℝ), selectToken temperature top_k l u = .ok (argmax l) := by
  intro l u
  unfold selectToken
  rw [if_neg (not_lt.mpr h)]

theorem selectToken_pos_none (temperature : ℝ) (l : List ℝ) (u : ℝ)
    (htemp : 0 < temperature) :
    selectToken temperature none l u = .ok (catDraw (stepProbs temperature l) u) := by
  unfold selectToken
  rw [if_pos htemp]

theorem selectToken_pos_some (temperature : ℝ) (k : ℕ) (l : List ℝ) (u : ℝ)
    (htemp : 0 < temperature) (hk : k ≤ l.length) :
    selectToken temperature (some k) l u =
      .ok ((topKIds (stepProbs temperature l) k).getD
        (catDraw (((topKIds (stepProbs temperature l) k).map
            (fun i => (stepProbs temperature l).getD i 0)).map
          (fun x => x / ((topKIds (stepProbs temperature l) k).map
            (fun i => (stepProbs temperature l).getD i 0)).sum)) u) 0) := by
  unfold selectToken
  rw [if_pos htemp]
  have hlt : ¬ (stepProbs temperature l).length < k := by
    rw [stepProbs_length]
    omega
  simp only [if_neg hlt]

theorem selectToken_pos_big (temperature : ℝ) (k : ℕ) (l : List ℝ) (u : ℝ)
    (htemp : 0 < temperature) (hk : l.length < k) :
    selectToken temperature (some k) l u = .error "top_k out of bounds for vocabulary" := by
  unfold selectToken
  rw [if_pos htemp]
  have hlt : (stepProbs temperature l).length < k := by
    rw [stepProbs_length]
    omega
  simp only [if_pos hlt]

/-! Loop-level lemmas. -/

theorem genLoop_nonpos {S : Type} (model : Model S) (tok : Tokenizer) (temperature : ℝ)
    (top_k : Option ℕ) (rand rand' : ℕ → ℝ) (h : temperature ≤ 0) :
    ∀ (fuel input : ℕ) (hx : Option S) (acc ins : List ℕ),
      genLoop model tok temperature top_k rand fuel input hx acc ins =
        genLoop model tok 0 top_k rand' fuel input hx acc ins := by
  intro fuel
  induction fuel with
  | zero => intro input hx acc ins; rfl
  | succ n ih =>
    intro input hx acc ins
    simp only [genLoop, selectToken_nonpos temperature top_k h,
      selectToken_nonpos 0 top_k (le_refl (0 : ℝ))]
    split
    · rfl
    · exact ih _ _ _ _

theorem genLoop_model_ext {S : Type} (m₁ m₂ : Model S) (tok : Tokenizer)
    (temperature : ℝ) (top_k : Option ℕ) (rand : ℕ → ℝ)
    (h : ∀ (t : ℕ) (s : Option S),
      (m₁.step t s).1.getLastD ([] : List ℝ) = (m₂.step t s).1.getLastD [] ∧
      (m₁.step t s).2 = (m₂.step t s).2) :
    ∀ (fuel input : ℕ) (hx : Option S) (acc ins : List ℕ),
      genLoop m₁ tok temperature top_k rand fuel input hx acc ins =
        genLoop m₂ tok temperature top_k rand fuel input hx acc ins := by
  intro fuel
  induction fuel with
  | zero => intro input hx acc ins; rfl
  | succ n ih =>
    intro input hx acc ins
    have h1 := (h input hx).1
    have h2 := (h input hx).2
    simp only [genLoop, h1, h2]
    cases hsel : selectToken temperature top_k ((m₂.step input hx).1.getLastD [])
        (rand ins.length) with
    | error e => rfl
    | ok t =>
      by_cases he : t = tok.eos_token_id
      · simp [he]
      · simp [he, ih]

theorem genLoop_ok_spec {S : Type} (model : Model S) (tok : Tokenizer) (temperature : ℝ)
    (top_k : Option ℕ) (rand : ℕ → ℝ) :
    ∀ (fuel input : ℕ) (hx : Option S) (acc ins : List ℕ) (r : GenResult),
      genLoop model tok temperature top_k rand fuel input hx acc ins = .ok r →
      (∃ rest, r.ids = acc ++ rest) ∧
      r.ids.length ≤ acc.length + fuel ∧
      (r.stoppedEarly = false → r.ids.length = acc.length + fuel) ∧
      (tok.eos_token_id ∉ acc → tok.eos_token_id ∉ r.ids) ∧
      (∃ n, n ≤ (r.ids.drop acc.length).length + 1 ∧
        r.inputs = ins ++ (input :: r.ids.drop acc.length).take n) := by
  intro fuel
  induction fuel with
  | zero =>
    intro input hx acc ins r hr
    simp only [genLoop] at hr
    cases hr
    refine ⟨⟨[], by simp⟩, by simp, fun _ => by simp, fun h => h, ⟨0, by simp, by simp⟩⟩
  | succ n ih =>
    intro input hx acc ins r hr
    simp only [genLoop] at hr
    cases hsel : selectToken temperature top_k ((model.step input hx).1.getLastD [])
        (rand ins.length) with
    | error e => rw [hsel] at hr; cases hr
    | ok t =>
      rw [hsel] at hr
      simp only at hr
      by_cases he : t = tok.eos_token_id
      · rw [if_pos he] at hr
        cases hr
        refine ⟨⟨[], by simp⟩, by simp, fun hfalse => by simp at hfalse,
          fun h => h, ⟨1, ?_, ?_⟩⟩
        · simp
        · simp [List.drop_length]
      · rw [if_neg he] at hr
        obtain ⟨⟨rest, hrest⟩, hlen, hex, heos, ⟨m, hm, htr⟩⟩ :=
          ih t (model.step input hx).2 (acc ++ [t]) (ins ++ [input]) r hr
        have hdrop : r.ids.drop acc.length = t :: rest := by
          rw [hrest, List.append_assoc]
          exact List.drop_left acc (t :: rest)
        have hdrop' : r.ids.drop (acc ++ [t]).length = rest := by
          rw [hrest]
          exact List.drop_left _ _
        refine ⟨⟨t :: rest, by rw [hrest]; simp⟩, ?_, ?_, ?_, ?_⟩
        · rw [hrest] at hlen ⊢
          simp at hlen ⊢
          omega
        · intro hst
          have := hex hst
          rw [hrest] at this ⊢
          simp at this ⊢
          omega
        · intro hacc
          apply heos
          simp only [List.mem_append, List.mem_singleton]
          rintro (h' | h')
          · exact hacc h'
          · exact he (h'.symm ▸ rfl)
        · rw [hdrop'] at hm htr
          refine ⟨m + 1, ?_, ?_⟩
          · rw [hdrop]
            simp at hm ⊢
            omega
          · rw [hdrop, htr]
            simp [List.take_succ_cons]

/-! Concrete one-step run used to discharge hypotheses of witness statements:
with the constant score row `[0, 1]`, greedy selection picks id 1, which is
`cTok`'s end-of-sequence id, so the loop stops after one model call with
nothing emitted. -/

theorem cRun_one : generateRun cModel cTok 0 none 1 cRand = .ok ⟨[], [0], true⟩ := by
  have hax : argmax [(0 : ℝ), 1] = 1 := by
    norm_num [argmax, listMax]
  have h1 : (1 : ℤ).toNat = 0 + 1 := rfl
  unfold generateRun
  rw [h1, genLoop]
  simp [cModel, cTok, selectToken_nonpos 0 none le_rfl, hax]

/-- C1: with `temperature = 0`, each step of `generate` deterministically
selects the token id with the maximum score in the last-position logits row:
the selection equals `argmax`, consults no randomness (the uniform draw is
irrelevant), and `argmax` returns a maximal position, breaking ties toward
the lowest id. -/
theorem C1_zero_temperature_greedy_argmax (top_k : Option ℕ) (l : List ℝ) (u u' : ℝ)
    (hne : l ≠ []) :
    selectToken 0 top_k l u = .ok (argmax l) ∧
    selectToken 0 top_k l u = selectToken 0 top_k l u' ∧
    argmax l < l.length ∧
    (∀ j, j < l.length → l.getD j 0 ≤ l.getD (argmax l) 0) ∧
    (∀ j, j < l.length → l.getD j 0 = l.getD (argmax l) 0 → argmax l ≤ j) := by
  refine ⟨selectToken_nonpos 0 top_k le_rfl l u, ?_, argmax_lt_length l hne, ?_, ?_⟩
  · rw [selectToken_nonpos 0 top_k le_rfl l u, selectToken_nonpos 0 top_k le_rfl l u']
  · intro j hj
    exact argmax_is_max l j hj hne
  · intro j hj hval
    by_contra hc
    push_neg at hc
    exact absurd hval (ne_of_lt (lt_of_lt_argmax l j hc))

/-- Witness for C1 at the concrete logits row `[0, 3, 3]`. -/
theorem C1_zero_temperature_greedy_argmax_witness :
    selectToken 0 none [(0 : ℝ), 3, 3] 0 = .ok (argmax [(0 : ℝ), 3, 3]) ∧
    selectToken 0 none [(0 : ℝ), 3, 3] 0 = selectToken 0 none [(0 : ℝ), 3, 3] 1 ∧
    argmax [(0 : ℝ), 3, 3] < ([(0 : ℝ), 3, 3]).length ∧
    (∀ j, j < ([(0 : ℝ), 3, 3]).length →
      ([(0 : ℝ), 3, 3]).getD j 0 ≤ ([(0 : ℝ), 3, 3]).getD (argmax [(0 : ℝ), 3, 3]) 0) ∧
    (∀ j, j < ([(0 : ℝ), 3, 3]).length →
      ([(0 : ℝ), 3, 3]).getD j 0 = ([(0 : ℝ), 3, 3]).getD (argmax [(0 : ℝ), 3, 3]) 0 →
      argmax [(0 : ℝ), 3, 3] ≤ j) :=
  C1_zero_temperature_greedy_argmax none [(0 : ℝ), 3, 3] 0 1 (by simp)

/-- C2: with `temperature > 0`, one step of `generate` equals the selection the
spec describes: scale every score by `1/temperature`, take the
numerically-stable softmax (subtract the maximum before exponentiating), then
either sample from the full distribution or restrict to the `top_k`
highest-probability ids, renormalize, and sample from the restricted
distribution. -/
theorem C2_sampling_step_matches_spec (temperature : ℝ) (top_k : Option ℕ)
    (l : List ℝ) (u : ℝ) (htemp : 0 < temperature) :
    selectToken temperature top_k l u = selectTokenSpec temperature top_k l u := by
  unfold selectToken selectTokenSpec
  rw [if_pos htemp, if_pos htemp, stepProbs_eq_spec]

/-- Witness for C2 at `temperature = 1`, `top_k = 1`, logits `[0, 1]`. -/
theorem C2_sampling_step_matches_spec_witness :
    selectToken 1 (some 1) [(0 : ℝ), 1] 0 = selectTokenSpec 1 (some 1) [(0 : ℝ), 1] 0 :=
  C2_sampling_step_matches_spec 1 (some 1) [(0 : ℝ), 1] 0 (by norm_num)

/-- C3: the emitted sequence never exceeds `max_length` ids, the
end-of-sequence id is never appended, and the run emits exactly
`max_length` ids unless it stopped early on an end-of-sequence sample. -/
theorem C3_length_invariants {S : Type} (model : Model S) (tok : Tokenizer)
    (temperature : ℝ) (top_k : Option ℕ) (max_length : ℤ) (rand : ℕ → ℝ)
    (r : GenResult)
    (hr : generateRun model tok temperature top_k max_length rand = .ok r) :
    r.ids.length ≤ max_length.toNat ∧
    ((0 : ℤ) ≤ max_length → (r.ids.length : ℤ) ≤ max_length) ∧
    tok.eos_token_id ∉ r.ids ∧
    (r.stoppedEarly = false → r.ids.length = max_length.toNat) := by
  obtain ⟨_, hlen, hex, heos, _⟩ :=
    genLoop_ok_spec model tok temperature top_k rand _ _ _ _ _ r hr
  refine ⟨by simpa using hlen, ?_, heos (by simp), by simpa using hex⟩
  intro hL
  have h1 : r.ids.length ≤ max_length.toNat := by simpa using hlen
  omega

/-- Witness for C3: a run that stops on the end-of-sequence id after one step. -/
theorem C3_length_invariants_witness :
    ([] : List ℕ).length ≤ (1 : ℤ).toNat ∧
    ((0 : ℤ) ≤ 1 → ((([] : List ℕ).length : ℕ) : ℤ) ≤ 1) ∧
    cTok.eos_token_id ∉ ([] : List ℕ) ∧
    (true = false → ([] : List ℕ).length = (1 : ℤ).toNat) :=
  C3_length_invariants cModel cTok 0 none 1 cRand ⟨[], [0], true⟩ cRun_one

/-- C4: with `temperature > 0` and `top_k = k` in range, the sampling step
succeeds and its chosen token lies within the top-k candidate set, which
consists of exactly `k` distinct ids each of whose probability under that
step's distribution dominates every id outside the set. -/
theorem C4_top_k_containment (temperature : ℝ) (k : ℕ) (l : List ℝ) (u : ℝ)
    (htemp : 0 < temperature) (hk : 1 ≤ k) (hkl : k ≤ l.length) :
    ∃ t, selectToken temperature (some k) l u = .ok t ∧
      t ∈ topKIds (stepProbs temperature l) k ∧
      (topKIds (stepProbs temperature l) k).length = k ∧
      (topKIds (stepProbs temperature l) k).Nodup ∧
      (∀ i ∈ topKIds (stepProbs temperature l) k,
        ∀ j, j < (stepProbs temperature l).length →
          j ∉ topKIds (stepProbs temperature l) k →
          (stepProbs temperature l).getD j 0 ≤ (stepProbs temperature l).getD i 0) := by
  have hplen : (stepProbs temperature l).length = l.length := stepProbs_length _ _
  have hklp : k ≤ (stepProbs temperature l).length := by omega
  have htop_len : (topKIds (stepProbs temperature l) k).length = k :=
    topKIds_length _ k hk hklp
  have hne : topKIds (stepProbs temperature l) k ≠ [] := by
    intro h0
    rw [h0] at htop_len
    simp at htop_len
    omega
  refine ⟨_, selectToken_pos_some temperature k l u htemp hkl, ?_, htop_len,
    topKIds_nodup _ k hk,
    fun i hi j hj hj2 => topKIds_dominates _ k i j hk hi hj hj2⟩
  apply getD_mem_of_lt
  have hq : (((topKIds (stepProbs temperature l) k).map
      (fun i => (stepProbs temperature l).getD i 0)).map
        (fun x => x / ((topKIds (stepProbs temperature l) k).map
          (fun i => (stepProbs temperature l).getD i 0)).sum)) ≠ [] := by
    simp [hne]
  have hlt := catDraw_lt_length _ u hq
  simpa using hlt

/-- Witness for C4 at `temperature = 1`, `k = 1`, logits `[0, 1]`. -/
theorem C4_top_k_containment_witness :
    ∃ t, selectToken 1 (some 1) [(0 : ℝ), 1] 0 = .ok t ∧
      t ∈ topKIds (stepProbs 1 [(0 : ℝ), 1]) 1 ∧
      (topKIds (stepProbs 1 [(0 : ℝ), 1]) 1).length = 1 ∧
      (topKIds (stepProbs 1 [(0 : ℝ), 1]) 1).Nodup ∧
      (∀ i ∈ topKIds (stepProbs 1 [(0 : ℝ), 1]) 1,
        ∀ j, j < (stepProbs 1 [(0 : ℝ), 1]).length →
          j ∉ topKIds (stepProbs 1 [(0 : ℝ), 1]) 1 →
          (stepProbs 1 [(0 : ℝ), 1]).getD j 0 ≤ (stepProbs 1 [(0 : ℝ), 1]).getD i 0) :=
  C4_top_k_containment 1 1 [(0 : ℝ), 1] 0 (by norm_num) le_rfl (by simp)

/-- C5 counterexample: at the invalid configuration `temperature = -1`,
`max_length = -1`, `generate` raises nothing at all — it returns normally —
so no `InvalidConfig` error is raised before the loop. -/
theorem C5_counterexample_no_validation_error :
    generate cModel cTok (-1) none (-1) cRand = .ok "" := rfl

/-- C5 amended: the source validates nothing before the loop. A negative
temperature silently selects the greedy branch, a negative `max_length`
silently yields the decoded empty sequence, and an over-large `top_k` fails
only inside the loop, at the first sampling step, after a model call. -/
theorem C5_amended_no_config_validation :
    (∀ (S : Type) (model : Model S) (tok : Tokenizer) (top_k : Option ℕ)
        (max_length : ℤ) (rand : ℕ → ℝ) (temperature : ℝ), temperature < 0 →
      generate model tok temperature top_k max_length rand =
        generate model tok 0 top_k max_length rand) ∧
    (∀ (S : Type) (model : Model S) (tok : Tokenizer) (temperature : ℝ)
        (top_k : Option ℕ) (max_length : ℤ) (rand : ℕ → ℝ), max_length < 0 →
      generate model tok temperature top_k max_length rand = .ok (tok.decode [])) ∧
    (∀ (S : Type) (model : Model S) (tok : Tokenizer) (temperature : ℝ) (k : ℕ)
        (max_length : ℤ) (rand : ℕ → ℝ) (V : ℕ),
      0 < temperature →
      (∀ (t : ℕ) (s : Option S), ((model.step t s).1.getLastD []).length = V) →
      V < k → 1 ≤ max_length →
      generateRun model tok temperature (some k) max_length rand =
        .error "top_k out of bounds for vocabulary") := by
  refine ⟨?_, ?_, ?_⟩
  · intro S model tok top_k L rand temp h
    unfold generate generateRun
    rw [genLoop_nonpos model tok temp top_k rand rand h.le]
  · intro S model tok temp top_k L rand h
    unfold generate generateRun
    rw [Int.toNat_of_nonpos h.le]
    rfl
  · intro S model tok temp k L rand V htemp hV hk hL
    unfold generateRun
    obtain ⟨m, hm⟩ : ∃ m, L.toNat = m + 1 := by
      have : 1 ≤ L.toNat := by omega
      exact ⟨L.toNat - 1, by omega⟩
    rw [hm, genLoop]
    rw [selectToken_pos_big temp k _ _ htemp (by rw [hV]; exact hk)]

/-- Witness for the amended C5 at concrete invalid configurations. -/
theorem C5_amended_no_config_validation_witness :
    (generate cModel cTok (-2) none 3 cRand = generate cModel cTok 0 none 3 cRand) ∧
    (generate cModel cTok 1 none (-3) cRand = .ok (cTok.decode [])) ∧
    (generateRun cModel cTok 1 (some 3) 1 cRand =
      .error "top_k out of bounds for vocabulary") :=
  ⟨C5_amended_no_config_validation.1 Unit cModel cTok none 3 cRand (-2) (by norm_num),
   (C5_amended_no_config_validation.2).1 Unit cModel cTok 1 none (-3) cRand (by norm_num),
   (C5_amended_no_config_validation.2).2 Unit cModel cTok 1 3 1 cRand 2 (by norm_num)
     (fun _ _ => rfl) (by norm_num) (by norm_num)⟩

/-- C6: with `temperature = 0`, two runs against the same model, tokenizer and
state behavior produce identical output whatever randomness each was given. -/
theorem C6_zero_temperature_two_run_determinism {S : Type} (model : Model S)
    (tok : Tokenizer) (top_k : Option ℕ) (max_length : ℤ) (rand₁ rand₂ : ℕ → ℝ) :
    generate model tok 0 top_k max_length rand₁ =
      generate model tok 0 top_k max_length rand₂ := by
  unfold generate generateRun
  rw [genLoop_nonpos model tok 0 top_k rand₁ rand₂ le_rfl]

/-- C7: with `max_length = 0`, `generate` returns the empty string and makes
zero model calls (the recorded call trace is empty). -/
theorem C7_max_length_zero {S : Type} (model : Model S) (tok : Tokenizer)
    (temperature : ℝ) (top_k : Option ℕ) (rand : ℕ → ℝ)
    (hdec : tok.decode [] = "") :
    generate model tok temperature top_k 0 rand = .ok "" ∧
    generateRun model tok temperature top_k 0 rand = .ok ⟨[], [], false⟩ := by
  constructor
  · have h : generate model tok temperature top_k 0 rand = .ok (tok.decode []) := rfl
    rw [h, hdec]
  · rfl

/-- Witness for C7 with the concrete model and tokenizer. -/
theorem C7_max_length_zero_witness :
    generate cModel cTok 1 none 0 cRand = .ok "" ∧
    generateRun cModel cTok 1 none 0 cRand = .ok ⟨[], [], false⟩ :=
  C7_max_length_zero cModel cTok 1 none cRand rfl

/-- C8: the run depends on the model only through the last-position score row
and the returned recurrent state, and the token fed at each model call is the
begin-of-sequence id followed step by step by exactly the ids just emitted
(the call trace is an initial segment of `bos :: emitted`). -/
theorem C8_last_position_and_input_threading :
    (∀ (S : Type) (m₁ m₂ : Model S) (tok : Tokenizer) (temperature : ℝ)
        (top_k : Option ℕ) (max_length : ℤ) (rand : ℕ → ℝ),
      (∀ (t : ℕ) (s : Option S),
        (m₁.step t s).1.getLastD ([] : List ℝ) = (m₂.step t s).1.getLastD [] ∧
        (m₁.step t s).2 = (m₂.step t s).2) →
      generateRun m₁ tok temperature top_k max_length rand =
        generateRun m₂ tok temperature top_k max_length rand) ∧
    (∀ (S : Type) (model : Model S) (tok : Tokenizer) (temperature : ℝ)
        (top_k : Option ℕ) (max_length : ℤ) (rand : ℕ → ℝ) (r : GenResult),
      generateRun model tok temperature top_k max_length rand = .ok r →
      ∃ n, n ≤ r.ids.length + 1 ∧
        r.inputs = (tok.bos_token_id :: r.ids).take n) := by
  constructor
  · intro S m₁ m₂ tok temp k L rand h
    unfold generateRun
    exact genLoop_model_ext m₁ m₂ tok temp k rand h _ _ _ _ _
  · intro S model tok temp k L rand r hr
    obtain ⟨_, _, _, _, ⟨n, hn, htr⟩⟩ :=
      genLoop_ok_spec model tok temp k rand _ _ _ _ _ r hr
    refine ⟨n, by simpa using hn, by simpa using htr⟩

/-- Witness for C8: a model with junk in non-last positions generates the same
run, and the one-step run fed exactly the begin-of-sequence id. -/
theorem C8_last_position_and_input_threading_witness :
    (generateRun cModel cTok 0 none 2 cRand = generateRun cModelPad cTok 0 none 2 cRand) ∧
    (∃ n, n ≤ ([] : List ℕ).length + 1 ∧
      [0] = (cTok.bos_token_id :: ([] : List ℕ)).take n) :=
  ⟨C8_last_position_and_input_threading.1 Unit cModel cModelPad cTok 0 none 2 cRand
      (fun _ _ => ⟨rfl, rfl⟩),
   C8_last_position_and_input_threading.2 Unit cModel cTok 0 none 1 cRand
      ⟨[], [0], true⟩ cRun_one⟩

/-- C9: whenever `temperature ≤ 0` — negative included — the source takes the
greedy arg-max branch, and the whole generation behaves exactly as with
`temperature = 0`; the sampling branch is reserved to `temperature > 0`. -/
theorem C9_nonpositive_temperature_takes_greedy_branch (temperature : ℝ)
    (h : temperature ≤ 0) :
    (∀ (top_k : Option ℕ) (l : List ℝ) (u : ℝ),
      selectToken temperature top_k l u = .ok (argmax l)) ∧
    (∀ (S : Type) (model : Model S) (tok : Tokenizer) (top_k : Option ℕ)
        (max_length : ℤ) (rand : ℕ → ℝ),
      generate model tok temperature top_k max_length rand =
        generate model tok 0 top_k max_length rand) := by
  constructor
  · intro k l u
    exact selectToken_nonpos temperature k h l u
  · intro S model tok k L rand
    unfold generate generateRun
    rw [genLoop_nonpos model tok temperature k rand rand h]

/-- Witness for C9 at `temperature = -1`. -/
theorem C9_nonpositive_temperature_takes_greedy_branch_witness :
    selectToken (-1) none [(0 : ℝ), 2] 0 = .ok (argmax [(0 : ℝ), 2]) ∧
    generate cModel cTok (-1) none 2 cRand = generate cModel cTok 0 none 2 cRand :=
  ⟨(C9_nonpositive_temperature_takes_greedy_branch (-1) (by norm_num)).1 none
      [(0 : ℝ), 2] 0,
   (C9_nonpositive_temperature_takes_greedy_branch (-1) (by norm_num)).2 Unit
      cModel cTok none 2 cRand⟩

/-- C10: with any `max_length ≤ 0`, negative values included, `generate`
raises no error, makes zero model calls (empty call trace), and returns the
decode of the empty id sequence. -/
theorem C10_nonpositive_max_length_empty_decode {S : Type} (model : Model S)
    (tok : Tokenizer) (temperature : ℝ) (top_k : Option ℕ) (max_length : ℤ)
    (rand : ℕ → ℝ) (h : max_length ≤ 0) :
    generate model tok temperature top_k max_length rand = .ok (tok.decode []) ∧
    generateRun model tok temperature top_k max_length rand = .ok ⟨[], [], false⟩ := by
  constructor
  · unfold generate generateRun
    rw [Int.toNat_of_nonpos h]
    rfl
  · unfold generateRun
    rw [Int.toNat_of_nonpos h]
    rfl

/-- Witness for C10 at `max_length = -7`. -/
theorem C10_nonpositive_max_length_empty_decode_witness :
    generate cModel cTok 1 none (-7) cRand = .ok (cTok.decode []) ∧
    generateRun cModel cTok 1 none (-7) cRand = .ok ⟨[], [], false⟩ :=
  C10_nonpositive_max_length_empty_decode cModel cTok 1 none (-7) cRand (by norm_num)

end Generation
